import Mathlib

/-!
Shallow embedding of the `coco-cashu-plugin-npc` sync plugin.

The embedding follows the current plugin implementation (`NPCPlugin`):
* quote validation and transformation from `src/types.ts`
  (`isValidQuote`, `isValidUrl`, `QUOTE_DEFAULTS`);
* one sync cycle `NPCPlugin.syncPaidQuotesOnce`;
* the trigger-coalescing runner `NPCPlugin.requestSync` / `NPCPlugin.startRunner`;
* the WebSocket reconnection machine `NPCPlugin.connectWebSocket` /
  `NPCPlugin.scheduleWebSocketReconnect`.

URL well-formedness (`new URL(...)` in the host runtime) is a host primitive,
so it enters the model as an oracle parameter `isUrl : String → Bool`.
Downstream services (`mintService.addMintByUrl`,
`mintQuoteService.addExistingMintQuotes`) are external collaborators; their
success or failure enters as a behaviour parameter, and the cycle's observable
effects (calls made, warnings logged, watermark write) are returned explicitly.
-/

/-- Raw quote as delivered by `npcClient.getQuotesSince`.  Each field is
`Option` because the payload is untrusted: `none` stands for a field that is
absent or not of the required primitive type (which is exactly what
`isValidQuote` checks via `typeof`). -/
structure RawQuote where
  quoteId : Option String
  mintUrl : Option String
  paidAt : Option Int
  amount : Option Int
  expiresAt : Option Int
  request : Option String
deriving Repr, DecidableEq

/-- Shape-validated quote (`NPCQuote` in `src/types.ts`): `quoteId`,
`mintUrl` and `paidAt` are present and correctly typed; the remaining fields
are carried through unchecked, exactly as the type guard narrows them. -/
structure NPCQuote where
  quoteId : String
  mintUrl : String
  paidAt : Int
  amount : Option Int
  expiresAt : Option Int
  request : Option String
deriving Repr, DecidableEq

/-- Transformed quote handed to `addExistingMintQuotes`: the raw fields kept
by the object spread, plus the normalized fields set in
`syncPaidQuotesOnce` (`unit`, `expiry`, `state`, `quote`, `request`). -/
structure MintQuote where
  quoteId : String
  mintUrl : String
  paidAt : Int
  amount : Option Int
  expiresAt : Option Int
  unit : String
  expiry : Option Int
  state : String
  quote : String
  request : String
deriving Repr, DecidableEq

/-- Translation of `isValidQuote` from `src/types.ts`: the quote must have a
string `quoteId`, a string `mintUrl` and a numeric `paidAt`. -/
def isValidQuote (q : RawQuote) : Bool :=
  q.quoteId.isSome && q.mintUrl.isSome && q.paidAt.isSome

/-- Narrowing performed by the `isValidQuote` type guard: extract the checked
fields, carrying the rest through.  Returns `none` exactly when
`isValidQuote` is `false`. -/
def toNPCQuote (q : RawQuote) : Option NPCQuote :=
  match q.quoteId, q.mintUrl, q.paidAt with
  | some i, some u, some p =>
      some { quoteId := i, mintUrl := u, paidAt := p,
             amount := q.amount, expiresAt := q.expiresAt, request := q.request }
  | _, _, _ => none

/-- Transformation applied per quote inside the group-processing step of
`syncPaidQuotesOnce`: spread of the validated quote plus
`unit := QUOTE_DEFAULTS.UNIT`, `expiry := quote.expiresAt`,
`state := QUOTE_DEFAULTS.STATE_PAID`, `quote := quote.quoteId`,
`request := quote.request ?? ""`. -/
def transformQuote (q : NPCQuote) : MintQuote :=
  { quoteId := q.quoteId, mintUrl := q.mintUrl, paidAt := q.paidAt,
    amount := q.amount, expiresAt := q.expiresAt,
    unit := "sat", expiry := q.expiresAt, state := "PAID",
    quote := q.quoteId, request := q.request.getD "" }

/-- Warnings logged by the validation loop of `syncPaidQuotesOnce`:
`invalidQuote` carries the raw payload ("Skipping invalid quote"),
`invalidMintUrl` carries the quote id and the mint URL
("Skipping quote with invalid mintUrl"). -/
inductive Warning where
  | invalidQuote (raw : RawQuote)
  | invalidMintUrl (quoteId : String) (mintUrl : String)
deriving Repr, DecidableEq

/-- Discriminator for shape-validation warnings. -/
def Warning.isShape : Warning → Bool
  | .invalidQuote _ => true
  | .invalidMintUrl _ _ => false

/-- Discriminator for mint-URL warnings. -/
def Warning.isUrlWarn : Warning → Bool
  | .invalidQuote _ => false
  | .invalidMintUrl _ _ => true

/-- Validation loop of `syncPaidQuotesOnce` (lines 369-390): in fetch order,
shape-check each raw quote, then URL-check its `mintUrl`; survivors are
collected in order, and each dropped record contributes one warning. -/
def validateQuotes (isUrl : String → Bool) : List RawQuote → List NPCQuote × List Warning
  | [] => ([], [])
  | raw :: rest =>
    let tail := validateQuotes isUrl rest
    match toNPCQuote raw with
    | some q =>
      if isUrl q.mintUrl then (q :: tail.1, tail.2)
      else (tail.1, .invalidMintUrl q.quoteId q.mintUrl :: tail.2)
    | none => (tail.1, .invalidQuote raw :: tail.2)

/-- One insertion step of the grouping `Map`: append to the existing entry for
the quote's `mintUrl`, or add a new entry at the end (JS `Map` preserves key
insertion order). -/
def insertQuote (acc : List (String × List NPCQuote)) (q : NPCQuote) :
    List (String × List NPCQuote) :=
  match acc with
  | [] => [(q.mintUrl, [q])]
  | (u, l) :: rest =>
    if u = q.mintUrl then (u, l ++ [q]) :: rest
    else (u, l) :: insertQuote rest q

/-- Grouping step of `syncPaidQuotesOnce` (lines 397-406): partition the
validated quotes by `mintUrl`, preserving per-group insertion order and key
insertion order. -/
def groupByMintUrl (qs : List NPCQuote) : List (String × List NPCQuote) :=
  qs.foldl insertQuote []

/-- Outcome of the two downstream collaborator calls, per group:
whether `mintService.addMintByUrl` resolves, and whether
`mintQuoteService.addExistingMintQuotes` resolves for a given payload. -/
structure DownstreamBehavior where
  ensureOk : String → Bool
  ingestOk : String → List MintQuote → Bool

/-- Observable effects of one execution of `syncPaidQuotesOnce`:
the validated quotes, the warnings logged, the `addMintByUrl` calls,
the `addExistingMintQuotes` calls actually issued, whether the cycle threw
(a rejected group promise propagates out of `Promise.all`), and the
`sinceStore.set` write, if any. -/
structure CycleResult where
  validated : List NPCQuote
  warnings : List Warning
  ensureCalls : List String
  ingestCalls : List (String × List MintQuote)
  failed : Bool
  watermarkWrite : Option Int
deriving Repr, DecidableEq

/-- Effect-free cycle outcome (early return paths). -/
def emptyCycle (warnings : List Warning) : CycleResult :=
  { validated := [], warnings := warnings, ensureCalls := [], ingestCalls := [],
    failed := false, watermarkWrite := none }

/-- Group-processing and watermark steps of `syncPaidQuotesOnce`
(lines 397-461), reached when at least one quote survived validation:
group by `mintUrl`; per group, `addMintByUrl` is always invoked (each
group's async task starts independently before `Promise.all` settles) and
`addExistingMintQuotes` is invoked when the ensure call resolved; the cycle
fails if any group's ensure or ingest call rejects; the watermark is written
only when no group failed and the fold of `Math.max` over the validated
`paidAt`, seeded with `since`, strictly exceeds `since`. -/
def mainCycle (since : Int) (beh : DownstreamBehavior)
    (quotes : List NPCQuote) (warnings : List Warning) : CycleResult :=
  let groups := groupByMintUrl quotes
  let failed := groups.any fun g =>
    !beh.ensureOk g.1 || !beh.ingestOk g.1 (g.2.map transformQuote)
  let latest := quotes.foldl (fun mx q => max mx q.paidAt) since
  { validated := quotes, warnings := warnings,
    ensureCalls := groups.map (·.1),
    ingestCalls := groups.filterMap fun g =>
      if beh.ensureOk g.1 then some (g.1, g.2.map transformQuote) else none,
    failed := failed,
    watermarkWrite := if !failed && decide (since < latest) then some latest else none }

/-- Translation of `NPCPlugin.syncPaidQuotesOnce` (lines 348-462) as a pure
function of the prior watermark `since`, the fetched payload (`none` models a
null/undefined response), the URL oracle and the downstream behaviour: the
cycle returns early with no effects when the fetch is absent or empty or
when no quote survives validation, and otherwise proceeds to `mainCycle`. -/
def syncPaidQuotesOnce (since : Int) (fetched : Option (List RawQuote))
    (isUrl : String → Bool) (beh : DownstreamBehavior) : CycleResult :=
  match fetched with
  | none => emptyCycle []
  | some raws =>
    if raws.isEmpty then emptyCycle []
    else
      let vr := validateQuotes isUrl raws
      if vr.1.isEmpty then emptyCycle vr.2
      else mainCycle since beh vr.1 vr.2

/-- Watermark value after a cycle: the written value if the cycle wrote one,
the prior value otherwise. -/
def newSince (since : Int) (r : CycleResult) : Int :=
  r.watermarkWrite.getD since

/-- Trigger kinds accepted by `NPCPlugin.requestSync`. -/
inductive SyncTrigger where
  | manual
  | websocket
  | interval
deriving Repr, DecidableEq

/-- Mutable fields of `NPCPlugin` that govern coalescing and lifecycle.
`runPromise` is the identity of the currently stored run promise
(promises are modelled by the id they were created with); `nextRunId`
supplies fresh identities. -/
structure PluginState where
  isReady : Bool
  isShuttingDown : Bool
  isRunning : Bool
  hasPendingUpdate : Bool
  runPromise : Option Nat
  ctxSet : Bool
  intervalMs : Option Nat
  intervalTimer : Option Nat
  nextRunId : Nat
deriving Repr, DecidableEq

/-- State right after the constructor: nothing ready, nothing running. -/
def initialState (intervalMs : Option Nat) : PluginState :=
  { isReady := false, isShuttingDown := false, isRunning := false,
    hasPendingUpdate := false, runPromise := none, ctxSet := false,
    intervalMs := intervalMs, intervalTimer := none, nextRunId := 0 }

/-- Translation of `NPCPlugin.armIntervalTimer` (lines 290-301): a no-op when
no interval is configured or the plugin is shutting down, otherwise the
single-shot timer is (re)armed with the configured delay. -/
def armIntervalTimer (s : PluginState) : PluginState :=
  if s.intervalMs.isNone || s.isShuttingDown then s
  else { s with intervalTimer := s.intervalMs }

/-- Synchronous effect of `NPCPlugin.startRunner` (lines 322-346): with a
context present, mark running, store a fresh run promise, and run the loop
body up to its first suspension point, which clears `hasPendingUpdate` at the
top of the first iteration.  Without a context it does nothing. -/
def startRunner (s : PluginState) : PluginState :=
  if s.ctxSet then
    { s with isRunning := true, hasPendingUpdate := false,
             runPromise := some s.nextRunId, nextRunId := s.nextRunId + 1 }
  else s

/-- Value returned by `requestSync`: `ignored` for the early return when the
plugin is not ready or shutting down, otherwise the stored run promise
(`this.runPromise ?? Promise.resolve()`, hence an `Option`). -/
inductive SyncReturn where
  | ignored
  | handle (h : Option Nat)
deriving Repr, DecidableEq

/-- Tail of `NPCPlugin.requestSync` after the guard and the interval rearm:
while a run is executing the call only sets `hasPendingUpdate` and returns
the executing run's promise; otherwise it sets the flag, starts the runner
and returns the fresh run's promise. -/
def requestSyncAfterGuard (s : PluginState) : PluginState × SyncReturn :=
  if s.isRunning then
    ({ s with hasPendingUpdate := true }, .handle s.runPromise)
  else
    let s' := startRunner { s with hasPendingUpdate := true }
    (s', .handle s'.runPromise)

/-- Translation of `NPCPlugin.requestSync` (lines 303-320): no-op unless
ready and not shutting down; an interval trigger rearms the timer; then the
coalescing tail `requestSyncAfterGuard` runs. -/
def requestSync (t : SyncTrigger) (s : PluginState) : PluginState × SyncReturn :=
  if !s.isReady || s.isShuttingDown then (s, .ignored)
  else requestSyncAfterGuard (if t = .interval then armIntervalTimer s else s)

/-- Synchronous prefix of `NPCPlugin.shutdown` (lines 191-203) together with
`teardown`: set the shutting-down flag and clear the pending timers. -/
def shutdownBegin (s : PluginState) : PluginState :=
  { s with isShuttingDown := true, intervalTimer := none }

/-- Events observed while one cycle of the runner loop executes: whether the
cycle resolves (`ok = false` models a thrown error), whether some
`requestSync` call set `hasPendingUpdate` during the cycle, and whether
`shutdown` began during the cycle. -/
structure CycleScript where
  ok : Bool
  pendingSet : Bool
  shutdownSet : Bool
deriving Repr, DecidableEq

/-- How the runner's do-while loop ended. -/
inductive RunEnd where
  | completed
  | threw
deriving Repr, DecidableEq

/-- The do-while loop inside `NPCPlugin.startRunner`:
`do { hasPendingUpdate := false; cycle } while (hasPendingUpdate && !isShuttingDown)`.
Driven by a script giving each executed cycle's events; returns the number of
cycles executed and how the loop ended, or `none` when the script is too
short to cover the loop. -/
def runnerLoop : List CycleScript → Bool → Option (Nat × RunEnd)
  | [], _ => none
  | c :: rest, sd =>
    if c.ok then
      let sd' := sd || c.shutdownSet
      if c.pendingSet && !sd' then
        match runnerLoop rest sd' with
        | some (n, e) => some (n + 1, e)
        | none => none
      else some (1, .completed)
    else some (1, .threw)

/-- Observable outcome of one runner run (the async IIFE in `startRunner`):
cycles executed, the "Sync failed" error log with its trigger context if a
cycle threw, and whether the stored run promise rejected. -/
structure RunOutcome where
  cyclesExecuted : Nat
  errorLoggedWith : Option SyncTrigger
  promiseRejected : Bool
deriving Repr, DecidableEq

/-- Translation of the try/catch/finally around the runner loop: a thrown
cycle error is caught and logged with the trigger, and the run promise
resolves normally either way. -/
def runnerRun (t : SyncTrigger) (script : List CycleScript) : Option RunOutcome :=
  (runnerLoop script false).map fun p =>
    match p.2 with
    | .completed => { cyclesExecuted := p.1, errorLoggedWith := none,
                      promiseRejected := false }
    | .threw => { cyclesExecuted := p.1, errorLoggedWith := some t,
                  promiseRejected := false }

/-- Default WebSocket reconnection settings (`WEBSOCKET_DEFAULTS`). -/
def INITIAL_DELAY_MS : Nat := 5000

/-- Maximum delay between reconnection attempts (`WEBSOCKET_DEFAULTS`). -/
def MAX_DELAY_MS : Nat := 60000

/-- Multiplier for exponential backoff (`WEBSOCKET_DEFAULTS`). -/
def BACKOFF_MULTIPLIER : Nat := 2

/-- Mutable fields of `NPCPlugin` that govern the WebSocket machine:
shutdown flag, presence of the `unsubscribe` handle, the connected flag, the
reconnect attempt counter and the pending reconnect timer (holding its
delay). -/
structure WsState where
  isShuttingDown : Bool
  subscribed : Bool
  connected : Bool
  attempts : Nat
  reconnectTimer : Option Nat
deriving Repr, DecidableEq

/-- Reconnect delay computed by `scheduleWebSocketReconnect` (lines 267-274):
`min(INITIAL_DELAY_MS * BACKOFF_MULTIPLIER ^ attempts, MAX_DELAY_MS)`. -/
def wsDelay (attempts : Nat) : Nat :=
  min (INITIAL_DELAY_MS * BACKOFF_MULTIPLIER ^ attempts) MAX_DELAY_MS

/-- Translation of `NPCPlugin.scheduleWebSocketReconnect` (lines 261-288):
a no-op while shutting down or while a reconnect timer is already pending;
otherwise drop the subscription, clear the connected flag, arm the timer with
the backoff delay for the current attempt count, and increment the count. -/
def scheduleWebSocketReconnect (s : WsState) : WsState :=
  if s.isShuttingDown || s.reconnectTimer.isSome then s
  else
    { s with subscribed := false, connected := false,
             attempts := s.attempts + 1,
             reconnectTimer := some (wsDelay s.attempts) }

/-- Translation of `NPCPlugin.connectWebSocket` (lines 231-259): a no-op
while shutting down or already subscribed; `ok` tells whether the
`subscribe` call returns (storing the handle and setting the connected flag)
or throws (logged, then a reconnect is scheduled). -/
def connectWebSocket (ok : Bool) (s : WsState) : WsState :=
  if s.isShuttingDown || s.subscribed then s
  else if ok then { s with subscribed := true, connected := true }
  else scheduleWebSocketReconnect s

/-- Message callback passed to `subscribe` (lines 236-240): set the connected
flag, reset the attempt counter to zero, and request a websocket-triggered
sync (the sync request lives in the runner layer). -/
def onWsMessage (s : WsState) : WsState :=
  { s with connected := true, attempts := 0 }

/-- Error callback passed to `subscribe` (lines 241-250): clear the connected
flag, log, and schedule a reconnect. -/
def onWsError (s : WsState) : WsState :=
  scheduleWebSocketReconnect { s with connected := false }

/-- Restatement of the two validation checks as a single predicate: a raw
quote survives the filter when it passes the shape check and its `mintUrl`
passes the URL check. -/
def survives (isUrl : String → Bool) (r : RawQuote) : Bool :=
  match toNPCQuote r with
  | some q => isUrl q.mintUrl
  | none => false

/-- A raw quote dropped by the shape check (`isValidQuote` false). -/
def shapeFails (r : RawQuote) : Bool :=
  (toNPCQuote r).isNone

/-- A raw quote that passes the shape check but whose `mintUrl` fails the
URL check. -/
def urlFails (isUrl : String → Bool) (r : RawQuote) : Bool :=
  match toNPCQuote r with
  | some q => !isUrl q.mintUrl
  | none => false

/-- Total number of records held by a list of groups. -/
def groupsLen (gs : List (String × List NPCQuote)) : Nat :=
  (gs.map fun g => g.2.length).sum

/-! Concrete fixtures used to evaluate the model on explicit inputs. -/

/-- Well-formed mint URL used in concrete inputs. -/
def urlA : String := "https://a.example"

/-- Second well-formed mint URL used in concrete inputs. -/
def urlB : String := "https://b.example"

/-- URL oracle for concrete inputs: exactly the two URLs above parse. -/
def urlOracle : String → Bool := fun s => s = urlA || s = urlB

/-- Valid raw quote for mint `urlA` paid at 50. -/
def rawA50 : RawQuote :=
  { quoteId := some "q1", mintUrl := some urlA, paidAt := some 50,
    amount := some 100, expiresAt := some 1000, request := none }

/-- Valid raw quote for mint `urlB` paid at 200. -/
def rawB200 : RawQuote :=
  { quoteId := some "q2", mintUrl := some urlB, paidAt := some 200,
    amount := some 100, expiresAt := some 1000, request := some "lnbc1" }

/-- Valid raw quote for mint `urlA` paid at 150. -/
def rawA150 : RawQuote :=
  { quoteId := some "q3", mintUrl := some urlA, paidAt := some 150,
    amount := some 100, expiresAt := some 1000, request := none }

/-- Raw quote missing its id: fails the shape check. -/
def rawNoId : RawQuote :=
  { quoteId := none, mintUrl := some urlA, paidAt := some 60,
    amount := none, expiresAt := none, request := none }

/-- Raw quote whose mint URL is not well-formed. -/
def rawBadUrl : RawQuote :=
  { quoteId := some "q4", mintUrl := some "not a url", paidAt := some 70,
    amount := none, expiresAt := none, request := none }

/-- Validated form of `rawA50`. -/
def npcA50 : NPCQuote :=
  { quoteId := "q1", mintUrl := urlA, paidAt := 50,
    amount := some 100, expiresAt := some 1000, request := none }

/-- Validated form of `rawB200`. -/
def npcB200 : NPCQuote :=
  { quoteId := "q2", mintUrl := urlB, paidAt := 200,
    amount := some 100, expiresAt := some 1000, request := some "lnbc1" }

/-- Validated form of `rawA150`. -/
def npcA150 : NPCQuote :=
  { quoteId := "q3", mintUrl := urlA, paidAt := 150,
    amount := some 100, expiresAt := some 1000, request := none }

/-- Downstream behaviour where every ensure and ingest call resolves. -/
def allOk : DownstreamBehavior := ⟨fun _ => true, fun _ _ => true⟩

/-- Downstream behaviour whose ensure call rejects for `urlB` only. -/
def failB : DownstreamBehavior := ⟨fun s => !(s = urlB), fun _ _ => true⟩

/-- Plugin state with a run executing (run promise id 0). -/
def runningState : PluginState :=
  { isReady := true, isShuttingDown := false, isRunning := true,
    hasPendingUpdate := false, runPromise := some 0, ctxSet := true,
    intervalMs := none, intervalTimer := none, nextRunId := 1 }

/-- Cycle that resolves, during which a sync request arrived. -/
def pendingOkCycle : CycleScript :=
  { ok := true, pendingSet := true, shutdownSet := false }

/-- Cycle that resolves with no request arriving during it. -/
def quietOkCycle : CycleScript :=
  { ok := true, pendingSet := false, shutdownSet := false }

/-- Cycle that throws, during which a sync request arrived. -/
def failingCycle : CycleScript :=
  { ok := false, pendingSet := true, shutdownSet := false }

/-- WebSocket state after three reconnect schedules, timer already fired. -/
def wsThreeAttempts : WsState :=
  { isShuttingDown := false, subscribed := false, connected := false,
    attempts := 3, reconnectTimer := none }

/-- WebSocket state with a reconnect timer pending. -/
def wsPendingTimer : WsState :=
  { isShuttingDown := false, subscribed := false, connected := false,
    attempts := 2, reconnectTimer := some 5000 }

/-! Helper lemmas about the watermark fold. -/

lemma le_paidFold (qs : List NPCQuote) (a : Int) :
    a ≤ qs.foldl (fun mx q => max mx q.paidAt) a := by
  induction qs generalizing a with
  | nil => exact le_refl a
  | cons q rest ih =>
    simp only [List.foldl_cons]
    exact le_trans (le_max_left a q.paidAt) (ih (max a q.paidAt))

lemma paidFold_mem_le (qs : List NPCQuote) (a : Int) :
    ∀ q ∈ qs, q.paidAt ≤ qs.foldl (fun mx q => max mx q.paidAt) a := by
  induction qs generalizing a with
  | nil => intro q hq; cases hq
  | cons p rest ih =>
    intro q hq
    simp only [List.foldl_cons]
    rcases List.mem_cons.mp hq with rfl | h
    · exact le_trans (le_max_right a q.paidAt) (le_paidFold rest _)
    · exact ih (max a p.paidAt) q h

lemma paidFold_eq_or_mem (qs : List NPCQuote) (a : Int) :
    qs.foldl (fun mx q => max mx q.paidAt) a = a ∨
      ∃ q ∈ qs, qs.foldl (fun mx q => max mx q.paidAt) a = q.paidAt := by
  induction qs generalizing a with
  | nil => exact Or.inl rfl
  | cons p rest ih =>
    simp only [List.foldl_cons]
    rcases ih (max a p.paidAt) with h | ⟨q, hq, h⟩
    · rcases max_choice a p.paidAt with hm | hm
      · exact Or.inl (by rw [h, hm])
      · exact Or.inr ⟨p, List.mem_cons_self p rest, by rw [h, hm]⟩
    · exact Or.inr ⟨q, List.mem_cons_of_mem p hq, h⟩

lemma paidFold_lt_iff (qs : List NPCQuote) (a : Int) :
    a < qs.foldl (fun mx q => max mx q.paidAt) a ↔ ∃ q ∈ qs, a < q.paidAt := by
  constructor
  · intro h
    rcases paidFold_eq_or_mem qs a with he | ⟨q, hq, he⟩
    · rw [he] at h; exact absurd h (lt_irrefl a)
    · exact ⟨q, hq, he ▸ h⟩
  · rintro ⟨q, hq, h⟩
    exact lt_of_lt_of_le h (paidFold_mem_le qs a q hq)

lemma paidFold_all_le (qs : List NPCQuote) (a : Int)
    (h : ∀ q ∈ qs, q.paidAt ≤ a) :
    qs.foldl (fun mx q => max mx q.paidAt) a = a := by
  rcases paidFold_eq_or_mem qs a with he | ⟨q, hq, he⟩
  · exact he
  · exact le_antisymm (he ▸ h q hq) (le_paidFold qs a)

/-! Helper lemmas about grouping. -/

lemma groupsLen_insert (acc : List (String × List NPCQuote)) (q : NPCQuote) :
    groupsLen (insertQuote acc q) = groupsLen acc + 1 := by
  induction acc with
  | nil => simp [insertQuote, groupsLen]
  | cons g rest ih =>
    obtain ⟨u, l⟩ := g
    by_cases h : u = q.mintUrl
    · simp [insertQuote, h, groupsLen]
      omega
    · simp only [insertQuote, if_neg h, groupsLen, List.map_cons, List.sum_cons]
      have : groupsLen (insertQuote rest q) = groupsLen rest + 1 := ih
      simp only [groupsLen] at this
      omega

lemma groupsLen_foldl (qs : List NPCQuote) (acc : List (String × List NPCQuote)) :
    groupsLen (qs.foldl insertQuote acc) = groupsLen acc + qs.length := by
  induction qs generalizing acc with
  | nil => simp
  | cons q rest ih =>
    simp only [List.foldl_cons, List.length_cons]
    rw [ih (insertQuote acc q), groupsLen_insert]
    omega

lemma groupsLen_groupByMintUrl (qs : List NPCQuote) :
    groupsLen (groupByMintUrl qs) = qs.length := by
  have h := groupsLen_foldl qs []
  simpa [groupByMintUrl, groupsLen] using h

lemma mem_insertQuote_of_mem (acc : List (String × List NPCQuote))
    (q : NPCQuote) (u : String) (x : NPCQuote)
    (h : ∃ g ∈ acc, g.1 = u ∧ x ∈ g.2) :
    ∃ g ∈ insertQuote acc q, g.1 = u ∧ x ∈ g.2 := by
  induction acc with
  | nil => simp at h
  | cons g0 rest ih =>
    obtain ⟨u0, l0⟩ := g0
    rcases h with ⟨g, hg, hgu, hx⟩
    rcases List.mem_cons.mp hg with rfl | hgr
    · by_cases hm : u0 = q.mintUrl
      · exact ⟨(u0, l0 ++ [q]), by simp [insertQuote, hm],
          hgu, List.mem_append_left _ hx⟩
      · exact ⟨(u0, l0), by simp [insertQuote, hm], hgu, hx⟩
    · by_cases hm : u0 = q.mintUrl
      · exact ⟨g, by simp only [insertQuote, if_pos hm]; exact List.mem_cons_of_mem _ hgr,
          hgu, hx⟩
      · rcases ih ⟨g, hgr, hgu, hx⟩ with ⟨g', hg', h1, h2⟩
        exact ⟨g', by simp only [insertQuote, if_neg hm]; exact List.mem_cons_of_mem _ hg',
          h1, h2⟩

lemma mem_insertQuote_self (acc : List (String × List NPCQuote)) (q : NPCQuote) :
    ∃ g ∈ insertQuote acc q, g.1 = q.mintUrl ∧ q ∈ g.2 := by
  induction acc with
  | nil => exact ⟨(q.mintUrl, [q]), by simp [insertQuote], rfl, by simp⟩
  | cons g0 rest ih =>
    obtain ⟨u0, l0⟩ := g0
    by_cases hm : u0 = q.mintUrl
    · exact ⟨(u0, l0 ++ [q]), by simp [insertQuote, hm], hm,
        List.mem_append_right _ (by simp)⟩
    · rcases ih with ⟨g, hg, h1, h2⟩
      exact ⟨g, by simp only [insertQuote, if_neg hm]; exact List.mem_cons_of_mem _ hg,
        h1, h2⟩

lemma mem_foldl_insert_of_mem (qs : List NPCQuote)
    (acc : List (String × List NPCQuote)) (u : String) (x : NPCQuote)
    (h : ∃ g ∈ acc, g.1 = u ∧ x ∈ g.2) :
    ∃ g ∈ qs.foldl insertQuote acc, g.1 = u ∧ x ∈ g.2 := by
  induction qs generalizing acc with
  | nil => exact h
  | cons p rest ih => exact ih _ (mem_insertQuote_of_mem acc p u x h)

lemma mem_groupByMintUrl (qs : List NPCQuote) :
    ∀ q ∈ qs, ∃ g ∈ groupByMintUrl qs, g.1 = q.mintUrl ∧ q ∈ g.2 := by
  suffices h : ∀ (l : List NPCQuote) (acc : List (String × List NPCQuote))
      (q : NPCQuote), q ∈ l →
      ∃ g ∈ l.foldl insertQuote acc, g.1 = q.mintUrl ∧ q ∈ g.2 by
    intro q hq; exact h qs [] q hq
  intro l
  induction l with
  | nil => intro acc q hq; cases hq
  | cons p rest ih =>
    intro acc q hq
    rcases List.mem_cons.mp hq with rfl | hq'
    · exact mem_foldl_insert_of_mem rest (insertQuote acc q) _ _
        (mem_insertQuote_self acc q)
    · exact ih (insertQuote acc p) q hq'

/-! Helper lemmas about validation counting. -/

lemma validateQuotes_fst_length (u : String → Bool) (l : List RawQuote) :
    (validateQuotes u l).1.length = l.countP (survives u) := by
  induction l with
  | nil => rfl
  | cons r rest ih =>
    simp only [validateQuotes, List.countP_cons]
    cases hr : toNPCQuote r with
    | some q =>
      by_cases hu : u q.mintUrl <;>
        simp [survives, hr, hu, ih]
    | none => simp [survives, hr, ih]

lemma validateQuotes_shape_count (u : String → Bool) (l : List RawQuote) :
    (validateQuotes u l).2.countP Warning.isShape = l.countP shapeFails := by
  induction l with
  | nil => rfl
  | cons r rest ih =>
    simp only [validateQuotes, List.countP_cons]
    cases hr : toNPCQuote r with
    | some q =>
      by_cases hu : u q.mintUrl <;>
        simp [shapeFails, hr, hu, ih, List.countP_cons, Warning.isShape]
    | none => simp [shapeFails, hr, ih, List.countP_cons, Warning.isShape]

lemma validateQuotes_url_count (u : String → Bool) (l : List RawQuote) :
    (validateQuotes u l).2.countP Warning.isUrlWarn = l.countP (urlFails u) := by
  induction l with
  | nil => rfl
  | cons r rest ih =>
    simp only [validateQuotes, List.countP_cons]
    cases hr : toNPCQuote r with
    | some q =>
      by_cases hu : u q.mintUrl <;>
        simp [urlFails, hr, hu, ih, List.countP_cons, Warning.isUrlWarn]
    | none => simp [urlFails, hr, ih, List.countP_cons, Warning.isUrlWarn]

lemma validateQuotes_snd_length (u : String → Bool) (l : List RawQuote) :
    (validateQuotes u l).2.length =
      l.countP shapeFails + l.countP (urlFails u) := by
  induction l with
  | nil => rfl
  | cons r rest ih =>
    simp only [validateQuotes, List.countP_cons]
    cases hr : toNPCQuote r with
    | some q =>
      by_cases hu : u q.mintUrl
      · simp [shapeFails, urlFails, hr, hu, ih]
      · simp [shapeFails, urlFails, hr, hu, ih]
        omega
    | none =>
      simp [shapeFails, urlFails, hr, ih]
      omega

/-! Helper lemmas about the runner loop. -/

lemma runnerLoop_pos (l : List CycleScript) (sd : Bool) (n : Nat) (e : RunEnd)
    (h : runnerLoop l sd = some (n, e)) : 1 ≤ n := by
  induction l generalizing sd n e with
  | nil => simp [runnerLoop] at h
  | cons c rest ih =>
    simp only [runnerLoop] at h
    by_cases hok : c.ok
    · simp only [hok, if_true] at h
      by_cases hp : c.pendingSet && !(sd || c.shutdownSet)
      · simp only [hp, if_true] at h
        cases hrec : runnerLoop rest (sd || c.shutdownSet) with
        | none => rw [hrec] at h; cases h
        | some p =>
          rw [hrec] at h
          obtain ⟨m, e'⟩ := p
          simp at h
          omega
      · simp only [hp, if_false] at h
        cases h
        omega
    · simp only [hok, if_false] at h
      cases h
      omega

/-! Dispatch lemma classifying the branches of `syncPaidQuotesOnce`. -/

lemma syncPaidQuotesOnce_cases (since : Int) (fetched : Option (List RawQuote))
    (u : String → Bool) (beh : DownstreamBehavior) :
    (fetched = none ∧ syncPaidQuotesOnce since fetched u beh = emptyCycle []) ∨
    (∃ l, fetched = some l ∧ (validateQuotes u l).1 = [] ∧
      ∃ ws, syncPaidQuotesOnce since fetched u beh = emptyCycle ws) ∨
    (∃ l, fetched = some l ∧ (validateQuotes u l).1 ≠ [] ∧
      syncPaidQuotesOnce since fetched u beh =
        mainCycle since beh (validateQuotes u l).1 (validateQuotes u l).2) := by
  cases fetched with
  | none => exact Or.inl ⟨rfl, rfl⟩
  | some l =>
    by_cases he : l.isEmpty
    · refine Or.inr (Or.inl ⟨l, rfl, ?_, [], ?_⟩)
      · have : l = [] := List.isEmpty_iff.mp he
        rw [this]; rfl
      · simp [syncPaidQuotesOnce, he]
    · by_cases hv : (validateQuotes u l).1.isEmpty
      · refine Or.inr (Or.inl ⟨l, rfl, List.isEmpty_iff.mp hv, (validateQuotes u l).2, ?_⟩)
        simp [syncPaidQuotesOnce, he, hv]
      · refine Or.inr (Or.inr ⟨l, rfl, fun hc => hv (by simp [hc]), ?_⟩)
        simp [syncPaidQuotesOnce, he, hv]


/-! Lemmas about the downstream calls under an all-resolving behaviour. -/

lemma ingestCalls_all_ensure (beh : DownstreamBehavior)
    (quotes : List NPCQuote) (hens : ∀ s, beh.ensureOk s = true) :
    ((groupByMintUrl quotes).filterMap fun g =>
        if beh.ensureOk g.1 then some (g.1, g.2.map transformQuote) else none) =
      (groupByMintUrl quotes).map fun g => (g.1, g.2.map transformQuote) := by
  simp only [hens, if_true]
  generalize groupByMintUrl quotes = gs
  induction gs with
  | nil => rfl
  | cons g rest ih => simp [List.filterMap_cons, ih]

lemma ingest_sum_all_ensure (beh : DownstreamBehavior)
    (quotes : List NPCQuote) (hens : ∀ s, beh.ensureOk s = true) :
    ((((groupByMintUrl quotes).filterMap fun g =>
        if beh.ensureOk g.1 then some (g.1, g.2.map transformQuote) else none).map
      fun c => c.2.length).sum) = quotes.length := by
  rw [ingestCalls_all_ensure beh quotes hens, List.map_map]
  have hfun : ((fun c : String × List MintQuote => c.2.length) ∘
      fun g : String × List NPCQuote => (g.1, g.2.map transformQuote)) =
      fun g : String × List NPCQuote => g.2.length := by
    funext g; simp
  rw [hfun]
  have h := groupsLen_groupByMintUrl quotes
  simpa [groupsLen] using h

lemma mainCycle_not_failed (since : Int) (beh : DownstreamBehavior)
    (quotes : List NPCQuote) (ws : List Warning)
    (hens : ∀ s, beh.ensureOk s = true)
    (hing : ∀ s ms, beh.ingestOk s ms = true) :
    (mainCycle since beh quotes ws).failed = false := by
  simp [mainCycle, hens, hing]

/-- C3: a sync cycle whose fetch returns an empty or absent list, or in which
zero records survive validation filtering, performs zero `addMintByUrl` and
zero `addExistingMintQuotes` calls and does not write the watermark store. -/
theorem C3_idempotent_noop (since : Int) (u : String → Bool)
    (beh : DownstreamBehavior) (fetched : Option (List RawQuote))
    (h : fetched = none ∨ ∃ l, fetched = some l ∧ (validateQuotes u l).1 = []) :
    (syncPaidQuotesOnce since fetched u beh).ensureCalls = [] ∧
    (syncPaidQuotesOnce since fetched u beh).ingestCalls = [] ∧
    (syncPaidQuotesOnce since fetched u beh).watermarkWrite = none := by
  rcases h with rfl | ⟨l, rfl, hv⟩
  · exact ⟨rfl, rfl, rfl⟩
  · simp only [syncPaidQuotesOnce]
    by_cases he : l.isEmpty
    · simp [he, emptyCycle]
    · simp [he, hv, emptyCycle]

/-- Witness for C3 at a concrete input: a fetch that returns only a
shape-invalid quote leaves no downstream calls and no watermark write. -/
theorem C3_idempotent_noop_witness :
    ((some [rawNoId] : Option (List RawQuote)) = none ∨
      ∃ l, (some [rawNoId] : Option (List RawQuote)) = some l ∧
        (validateQuotes urlOracle l).1 = []) ∧
    (syncPaidQuotesOnce 7 (some [rawNoId]) urlOracle allOk).ensureCalls = [] ∧
    (syncPaidQuotesOnce 7 (some [rawNoId]) urlOracle allOk).ingestCalls = [] ∧
    (syncPaidQuotesOnce 7 (some [rawNoId]) urlOracle allOk).watermarkWrite = none :=
  ⟨Or.inr ⟨[rawNoId], rfl, by decide⟩,
   C3_idempotent_noop 7 urlOracle allOk (some [rawNoId])
     (Or.inr ⟨[rawNoId], rfl, by decide⟩)⟩

/-- C4: with watermark 0 and a fetch returning valid quotes for mints A, B, A
paid at 50, 200, 150, the cycle issues exactly two ingest calls — mint A with
the two transformed quotes in fetch order, mint B with one — and sets the
watermark to 200. -/
theorem C4_grouping_correctness :
    (syncPaidQuotesOnce 0 (some [rawA50, rawB200, rawA150]) urlOracle allOk).ingestCalls =
      [(urlA, [transformQuote npcA50, transformQuote npcA150]),
       (urlB, [transformQuote npcB200])] ∧
    (syncPaidQuotesOnce 0 (some [rawA50, rawB200, rawA150]) urlOracle allOk).watermarkWrite =
      some 200 ∧
    (syncPaidQuotesOnce 0 (some [rawA50, rawB200, rawA150]) urlOracle allOk).failed = false := by
  decide

/-! Watermark behaviour of the main cycle branch. -/

lemma mainCycle_watermark_eq (since : Int) (beh : DownstreamBehavior)
    (quotes : List NPCQuote) (ws : List Warning) :
    (mainCycle since beh quotes ws).watermarkWrite =
      if !(mainCycle since beh quotes ws).failed &&
          decide (since < quotes.foldl (fun mx q => max mx q.paidAt) since)
      then some (quotes.foldl (fun mx q => max mx q.paidAt) since) else none := rfl

lemma mainCycle_validated (since : Int) (beh : DownstreamBehavior)
    (quotes : List NPCQuote) (ws : List Warning) :
    (mainCycle since beh quotes ws).validated = quotes := rfl

lemma mainCycle_wm_spec (since : Int) (beh : DownstreamBehavior)
    (quotes : List NPCQuote) (ws : List Warning) :
    since ≤ newSince since (mainCycle since beh quotes ws) ∧
    ((mainCycle since beh quotes ws).failed = false →
      (since < newSince since (mainCycle since beh quotes ws) ↔
        ∃ q ∈ quotes, since < q.paidAt)) ∧
    (since < newSince since (mainCycle since beh quotes ws) →
      (∃ q ∈ quotes, q.paidAt = newSince since (mainCycle since beh quotes ws)) ∧
      ∀ q ∈ quotes, q.paidAt ≤ newSince since (mainCycle since beh quotes ws)) := by
  cases hfl : (mainCycle since beh quotes ws).failed with
  | true =>
    have hw : (mainCycle since beh quotes ws).watermarkWrite = none := by
      rw [mainCycle_watermark_eq, hfl]; rfl
    have hns : newSince since (mainCycle since beh quotes ws) = since := by
      simp [newSince, hw]
    rw [hns]
    exact ⟨le_refl _, fun hc => absurd hc (by decide),
      fun hc => absurd hc (lt_irrefl _)⟩
  | false =>
    by_cases hlt : since < quotes.foldl (fun mx q => max mx q.paidAt) since
    · have hw : (mainCycle since beh quotes ws).watermarkWrite =
          some (quotes.foldl (fun mx q => max mx q.paidAt) since) := by
        rw [mainCycle_watermark_eq, hfl]; simp [hlt]
      have hns : newSince since (mainCycle since beh quotes ws) =
          quotes.foldl (fun mx q => max mx q.paidAt) since := by
        simp [newSince, hw]
      rw [hns]
      refine ⟨le_paidFold quotes since, fun _ => ?_,
        fun _ => ⟨?_, paidFold_mem_le quotes since⟩⟩
      · exact ⟨fun _ => (paidFold_lt_iff quotes since).mp hlt, fun _ => hlt⟩
      · rcases paidFold_eq_or_mem quotes since with he | ⟨q, hq, he⟩
        · exfalso; rw [he] at hlt; exact lt_irrefl _ hlt
        · exact ⟨q, hq, he.symm⟩
    · have hw : (mainCycle since beh quotes ws).watermarkWrite = none := by
        rw [mainCycle_watermark_eq, hfl]; simp [hlt]
      have hns : newSince since (mainCycle since beh quotes ws) = since := by
        simp [newSince, hw]
      rw [hns]
      refine ⟨le_refl _, fun _ => ?_, fun hc => absurd hc (lt_irrefl _)⟩
      constructor
      · intro hc; exact absurd hc (lt_irrefl _)
      · intro hex; exact absurd ((paidFold_lt_iff quotes since).mpr hex) hlt

/-- C2 amended: for every cycle the watermark never decreases; in a cycle
whose downstream forwarding succeeds it strictly increases exactly when some
validated record has `paidAt` above the prior watermark; and whenever it
increases it is set exactly to the maximum `paidAt` among the cycle's
validated records.  (The original claim's "iff", stated for every cycle,
fails for cycles aborted by a downstream failure; see the counterexample.) -/
theorem C2_watermark_monotonic_amended (since : Int)
    (fetched : Option (List RawQuote)) (u : String → Bool)
    (beh : DownstreamBehavior) :
    since ≤ newSince since (syncPaidQuotesOnce since fetched u beh) ∧
    ((syncPaidQuotesOnce since fetched u beh).failed = false →
      (since < newSince since (syncPaidQuotesOnce since fetched u beh) ↔
        ∃ q ∈ (syncPaidQuotesOnce since fetched u beh).validated, since < q.paidAt)) ∧
    (since < newSince since (syncPaidQuotesOnce since fetched u beh) →
      (∃ q ∈ (syncPaidQuotesOnce since fetched u beh).validated,
        q.paidAt = newSince since (syncPaidQuotesOnce since fetched u beh)) ∧
      ∀ q ∈ (syncPaidQuotesOnce since fetched u beh).validated,
        q.paidAt ≤ newSince since (syncPaidQuotesOnce since fetched u beh)) := by
  rcases syncPaidQuotesOnce_cases since fetched u beh with
    ⟨hf, h⟩ | ⟨l, hf, hv, ws, h⟩ | ⟨l, hf, hv, h⟩
  · rw [h]; simp [newSince, emptyCycle]
  · rw [h]; simp [newSince, emptyCycle]
  · rw [h, mainCycle_validated]
    exact mainCycle_wm_spec since beh (validateQuotes u l).1 (validateQuotes u l).2

/-- Counterexample to C2 as stated: with watermark 0, a fetch returning a
valid quote paid at 50 for mint A and one paid at 200 for mint B, and a
downstream whose ensure call fails for mint B, the cycle has a validated
record with `paidAt` above the watermark yet the watermark does not
increase, refuting the unrestricted "increases iff" part of the claim. -/
theorem C2_counterexample :
    ¬ (0 < newSince 0 (syncPaidQuotesOnce 0 (some [rawA50, rawB200]) urlOracle failB) ↔
        ∃ q ∈ (syncPaidQuotesOnce 0 (some [rawA50, rawB200]) urlOracle failB).validated,
          0 < q.paidAt) := by
  decide

/-- Witness for C2 amended at a concrete input: one valid quote paid at 50,
downstream all-resolving, watermark 0. -/
theorem C2_watermark_monotonic_amended_witness :
    (syncPaidQuotesOnce 0 (some [rawA50]) urlOracle allOk).failed = false ∧
    (0 : Int) < newSince 0 (syncPaidQuotesOnce 0 (some [rawA50]) urlOracle allOk) ∧
    ((0 : Int) < newSince 0 (syncPaidQuotesOnce 0 (some [rawA50]) urlOracle allOk) ↔
      ∃ q ∈ (syncPaidQuotesOnce 0 (some [rawA50]) urlOracle allOk).validated,
        (0 : Int) < q.paidAt) ∧
    ((∃ q ∈ (syncPaidQuotesOnce 0 (some [rawA50]) urlOracle allOk).validated,
        q.paidAt = newSince 0 (syncPaidQuotesOnce 0 (some [rawA50]) urlOracle allOk)) ∧
      ∀ q ∈ (syncPaidQuotesOnce 0 (some [rawA50]) urlOracle allOk).validated,
        q.paidAt ≤ newSince 0 (syncPaidQuotesOnce 0 (some [rawA50]) urlOracle allOk)) :=
  ⟨by decide, by decide,
   (C2_watermark_monotonic_amended 0 (some [rawA50]) urlOracle allOk).2.1 (by decide),
   (C2_watermark_monotonic_amended 0 (some [rawA50]) urlOracle allOk).2.2 (by decide)⟩

/-! Projection lemmas for the main cycle branch. -/

lemma mainCycle_warnings (since : Int) (beh : DownstreamBehavior)
    (quotes : List NPCQuote) (ws : List Warning) :
    (mainCycle since beh quotes ws).warnings = ws := rfl

lemma mainCycle_ingestCalls (since : Int) (beh : DownstreamBehavior)
    (quotes : List NPCQuote) (ws : List Warning) :
    (mainCycle since beh quotes ws).ingestCalls =
      (groupByMintUrl quotes).filterMap fun g =>
        if beh.ensureOk g.1 then some (g.1, g.2.map transformQuote) else none := rfl

lemma mainCycle_failed (since : Int) (beh : DownstreamBehavior)
    (quotes : List NPCQuote) (ws : List Warning) :
    (mainCycle since beh quotes ws).failed =
      (groupByMintUrl quotes).any fun g =>
        !beh.ensureOk g.1 || !beh.ingestOk g.1 (g.2.map transformQuote) := rfl

/-- C5: for every fetched list holding exactly one record that survives both
checks, one record that fails shape validation, and one record that fails
only the URL check, the cycle forwards exactly the one valid record (one
record in total across all ingest calls), logs exactly two warnings — one of
the raw-payload kind and one of the id-and-mint-URL kind — and completes
without aborting. -/
theorem C5_drop_and_continue (u : String → Bool) (beh : DownstreamBehavior)
    (since : Int) (l : List RawQuote)
    (h1 : l.countP (survives u) = 1)
    (h2 : l.countP shapeFails = 1)
    (h3 : l.countP (urlFails u) = 1)
    (hens : ∀ s, beh.ensureOk s = true)
    (hing : ∀ s ms, beh.ingestOk s ms = true) :
    (syncPaidQuotesOnce since (some l) u beh).validated.length = 1 ∧
    (syncPaidQuotesOnce since (some l) u beh).warnings.length = 2 ∧
    (syncPaidQuotesOnce since (some l) u beh).warnings.countP Warning.isShape = 1 ∧
    (syncPaidQuotesOnce since (some l) u beh).warnings.countP Warning.isUrlWarn = 1 ∧
    (((syncPaidQuotesOnce since (some l) u beh).ingestCalls.map
      fun c => c.2.length).sum) = 1 ∧
    (syncPaidQuotesOnce since (some l) u beh).failed = false := by
  have hq1 : (validateQuotes u l).1.length = 1 := by
    rw [validateQuotes_fst_length]; exact h1
  have hqne : (validateQuotes u l).1 ≠ [] := by
    intro hnil; rw [hnil] at hq1; cases hq1
  rcases syncPaidQuotesOnce_cases since (some l) u beh with
    ⟨hf, h⟩ | ⟨l', hf, hv, ws, h⟩ | ⟨l', hf, hv, h⟩
  · cases hf
  · injection hf with hf'; subst hf'; exact absurd hv hqne
  · injection hf with hf'; subst hf'
    rw [h]
    refine ⟨?_, ?_, ?_, ?_, ?_, ?_⟩
    · rw [mainCycle_validated]; exact hq1
    · rw [mainCycle_warnings, validateQuotes_snd_length, h2, h3]
    · rw [mainCycle_warnings, validateQuotes_shape_count]; exact h2
    · rw [mainCycle_warnings, validateQuotes_url_count]; exact h3
    · rw [mainCycle_ingestCalls, ingest_sum_all_ensure beh _ hens]; exact hq1
    · exact mainCycle_not_failed since beh _ _ hens hing

/-- Witness for C5 at a concrete input: one valid quote, one quote missing
its id, one quote with a malformed mint URL. -/
theorem C5_drop_and_continue_witness :
    ([rawA50, rawNoId, rawBadUrl].countP (survives urlOracle) = 1) ∧
    ([rawA50, rawNoId, rawBadUrl].countP shapeFails = 1) ∧
    ([rawA50, rawNoId, rawBadUrl].countP (urlFails urlOracle) = 1) ∧
    (syncPaidQuotesOnce 0 (some [rawA50, rawNoId, rawBadUrl]) urlOracle allOk).validated.length = 1 ∧
    (syncPaidQuotesOnce 0 (some [rawA50, rawNoId, rawBadUrl]) urlOracle allOk).warnings.length = 2 ∧
    (((syncPaidQuotesOnce 0 (some [rawA50, rawNoId, rawBadUrl]) urlOracle allOk).ingestCalls.map
      fun c => c.2.length).sum) = 1 ∧
    (syncPaidQuotesOnce 0 (some [rawA50, rawNoId, rawBadUrl]) urlOracle allOk).failed = false := by
  have h := C5_drop_and_continue urlOracle allOk 0 [rawA50, rawNoId, rawBadUrl]
    (by decide) (by decide) (by decide) (fun _ => rfl) (fun _ _ => rfl)
  exact ⟨by decide, by decide, by decide, h.1, h.2.1, h.2.2.2.2.1, h.2.2.2.2.2⟩

/-- C7: if the ensure or ingest call for any single group fails, the cycle
fails (the rejection propagates out of the group-processing `Promise.all`),
the watermark store is not written, and there is no compensating rollback —
every other group whose ensure call resolved still has its ingest call
issued. -/
theorem C7_downstream_failure_aborts (since : Int) (l : List RawQuote)
    (u : String → Bool) (beh : DownstreamBehavior) (g : String × List NPCQuote)
    (hg : g ∈ groupByMintUrl (validateQuotes u l).1)
    (hfail : beh.ensureOk g.1 = false ∨
      beh.ingestOk g.1 (g.2.map transformQuote) = false) :
    (syncPaidQuotesOnce since (some l) u beh).failed = true ∧
    (syncPaidQuotesOnce since (some l) u beh).watermarkWrite = none ∧
    ∀ g' ∈ groupByMintUrl (validateQuotes u l).1, beh.ensureOk g'.1 = true →
      (g'.1, g'.2.map transformQuote) ∈
        (syncPaidQuotesOnce since (some l) u beh).ingestCalls := by
  have hqne : (validateQuotes u l).1 ≠ [] := by
    intro hnil
    rw [hnil] at hg
    simp [groupByMintUrl] at hg
  rcases syncPaidQuotesOnce_cases since (some l) u beh with
    ⟨hf, h⟩ | ⟨l', hf, hv, ws, h⟩ | ⟨l', hf, hv, h⟩
  · cases hf
  · injection hf with hf'; subst hf'; exact absurd hv hqne
  · injection hf with hf'; subst hf'
    rw [h]
    have hfl : (mainCycle since beh (validateQuotes u l).1 (validateQuotes u l).2).failed = true := by
      rw [mainCycle_failed]
      refine List.any_eq_true.mpr ⟨g, hg, ?_⟩
      rcases hfail with hf1 | hf2
      · simp [hf1]
      · simp [hf2]
    refine ⟨hfl, ?_, ?_⟩
    · rw [mainCycle_watermark_eq, hfl]; rfl
    · intro g' hg' he
      rw [mainCycle_ingestCalls]
      exact List.mem_filterMap.mpr ⟨g', hg', by simp [he]⟩

/-- Witness for C7 at a concrete input: the ensure call for mint B rejects
while mint A's group is processed; the cycle fails, the watermark is not
written, and mint A's ingest call is still issued. -/
theorem C7_downstream_failure_aborts_witness :
    ((urlB, [npcB200]) ∈ groupByMintUrl (validateQuotes urlOracle [rawA50, rawB200]).1) ∧
    (failB.ensureOk urlB = false) ∧
    (syncPaidQuotesOnce 0 (some [rawA50, rawB200]) urlOracle failB).failed = true ∧
    (syncPaidQuotesOnce 0 (some [rawA50, rawB200]) urlOracle failB).watermarkWrite = none ∧
    ((urlA, [transformQuote npcA50]) ∈
      (syncPaidQuotesOnce 0 (some [rawA50, rawB200]) urlOracle failB).ingestCalls) := by
  have h := C7_downstream_failure_aborts 0 [rawA50, rawB200] urlOracle failB
    (urlB, [npcB200]) (by decide) (Or.inl (by decide))
  exact ⟨by decide, by decide, h.1, h.2.1,
    h.2.2 (urlA, [npcA50]) (by decide) (by decide)⟩

/-- C10 (implicit): validated records whose `paidAt` does not exceed the
current watermark are still transformed and forwarded — each validated quote
appears, transformed, in the ingest call for its mint — and when every
validated record's `paidAt` is at or below the watermark the watermark store
is not written, so the same records fetched again later would be forwarded
again: the watermark is the only deduplication mechanism. -/
theorem C10_below_watermark_still_forwarded (since : Int) (l : List RawQuote)
    (u : String → Bool) (beh : DownstreamBehavior)
    (hens : ∀ s, beh.ensureOk s = true) :
    (∀ q ∈ (syncPaidQuotesOnce since (some l) u beh).validated,
      ∃ c ∈ (syncPaidQuotesOnce since (some l) u beh).ingestCalls,
        c.1 = q.mintUrl ∧ transformQuote q ∈ c.2) ∧
    ((∀ q ∈ (syncPaidQuotesOnce since (some l) u beh).validated, q.paidAt ≤ since) →
      (syncPaidQuotesOnce since (some l) u beh).watermarkWrite = none) := by
  rcases syncPaidQuotesOnce_cases since (some l) u beh with
    ⟨hf, h⟩ | ⟨l', hf, hv, ws, h⟩ | ⟨l', hf, hv, h⟩
  · cases hf
  · rw [h]
    exact ⟨fun q hq => by simp [emptyCycle] at hq, fun _ => rfl⟩
  · injection hf with hf'; subst hf'
    rw [h, mainCycle_validated, mainCycle_ingestCalls]
    constructor
    · intro q hq
      obtain ⟨g, hg, hg1, hg2⟩ := mem_groupByMintUrl (validateQuotes u l).1 q hq
      refine ⟨(g.1, g.2.map transformQuote),
        List.mem_filterMap.mpr ⟨g, hg, by simp [hens]⟩, hg1, ?_⟩
      exact List.mem_map_of_mem transformQuote hg2
    · intro hall
      rw [mainCycle_watermark_eq, paidFold_all_le (validateQuotes u l).1 since hall]
      simp

/-- Witness for C10 at a concrete input: watermark 1000 and a single
validated quote paid at 50; the quote is still ingested for its mint and the
watermark is untouched. -/
theorem C10_below_watermark_still_forwarded_witness :
    (∀ q ∈ (syncPaidQuotesOnce 1000 (some [rawA50]) urlOracle allOk).validated,
      ∃ c ∈ (syncPaidQuotesOnce 1000 (some [rawA50]) urlOracle allOk).ingestCalls,
        c.1 = q.mintUrl ∧ transformQuote q ∈ c.2) ∧
    (syncPaidQuotesOnce 1000 (some [rawA50]) urlOracle allOk).watermarkWrite = none := by
  have h := C10_below_watermark_still_forwarded 1000 [rawA50] urlOracle allOk
    (fun _ => rfl)
  exact ⟨h.1, h.2 (by decide)⟩

/-- C1 amended: while a run is executing (runner ready, not shutting down),
every `requestSync` call — whatever its trigger — sets the pending-update
flag and returns the executing run's promise unchanged; and a run whose
in-flight cycle resolves, with the pending flag set during it and shutdown
not begun, executes at least one additional full cycle before completing.
(The original claim's unconditional "does not complete until one more cycle"
fails when the in-flight cycle throws or shutdown begins; see the
counterexample.) -/
theorem C1_coalescing_amended :
    (∀ (t : SyncTrigger) (s : PluginState),
      s.isReady = true → s.isShuttingDown = false → s.isRunning = true →
      (requestSync t s).2 = SyncReturn.handle s.runPromise ∧
      (requestSync t s).1.hasPendingUpdate = true ∧
      (requestSync t s).1.isRunning = true ∧
      (requestSync t s).1.runPromise = s.runPromise) ∧
    (∀ (c : CycleScript) (rest : List CycleScript) (n : Nat) (e : RunEnd),
      c.ok = true → c.pendingSet = true → c.shutdownSet = false →
      runnerLoop (c :: rest) false = some (n, e) → 2 ≤ n) := by
  constructor
  · intro t s hr hsd hrun
    have hguard : (!s.isReady || s.isShuttingDown) = false := by
      rw [hr, hsd]; rfl
    have harm : (armIntervalTimer s).isRunning = s.isRunning ∧
        (armIntervalTimer s).runPromise = s.runPromise := by
      unfold armIntervalTimer
      split
      · exact ⟨rfl, rfl⟩
      · exact ⟨rfl, rfl⟩
    set s' := if t = SyncTrigger.interval then armIntervalTimer s else s with hs'
    have hfields : s'.isRunning = true ∧ s'.runPromise = s.runPromise := by
      rw [hs']
      split
      · exact ⟨harm.1.trans hrun, harm.2⟩
      · exact ⟨hrun, rfl⟩
    have hreq : requestSync t s = requestSyncAfterGuard s' := by
      unfold requestSync
      rw [hguard]
      simp
    have hbody : requestSyncAfterGuard s' =
        ({ s' with hasPendingUpdate := true }, .handle s'.runPromise) := by
      simp [requestSyncAfterGuard, hfields.1]
    rw [hreq, hbody]
    exact ⟨by rw [hfields.2], rfl, hfields.1, hfields.2⟩
  · intro c rest n e hok hp hsd hrun
    simp only [runnerLoop, hok, if_true, hsd, Bool.or_false, hp,
      Bool.not_false, Bool.and_self, Bool.and_true, reduceIte] at hrun
    cases hrl : runnerLoop rest false with
    | none => rw [hrl] at hrun; cases hrun
    | some p =>
      obtain ⟨m, e'⟩ := p
      rw [hrl] at hrun
      have hm := runnerLoop_pos rest false m e' hrl
      have : m + 1 = n := by
        have := Option.some.inj hrun
        exact congrArg Prod.fst this
      omega

/-- Counterexample to C1 as stated: with a run executing, a `requestSync`
call sets the pending flag and receives the run's handle, yet when the
in-flight cycle throws the run completes after that single cycle — no
additional full cycle executes after the call. -/
theorem C1_counterexample :
    (requestSync SyncTrigger.websocket runningState).1.hasPendingUpdate = true ∧
    (requestSync SyncTrigger.websocket runningState).2 = SyncReturn.handle (some 0) ∧
    runnerLoop [failingCycle] false = some (1, RunEnd.threw) ∧
    runnerRun SyncTrigger.manual [failingCycle] =
      some { cyclesExecuted := 1, errorLoggedWith := some SyncTrigger.manual,
             promiseRejected := false } := by
  decide

/-- Witness for C1 amended at concrete inputs: a manual request against a
running state, and a resolving cycle with the pending flag set followed by a
quiet cycle. -/
theorem C1_coalescing_amended_witness :
    (requestSync SyncTrigger.manual runningState).2 = SyncReturn.handle (some 0) ∧
    (requestSync SyncTrigger.manual runningState).1.hasPendingUpdate = true ∧
    (requestSync SyncTrigger.manual runningState).1.isRunning = true ∧
    (requestSync SyncTrigger.manual runningState).1.runPromise = some 0 ∧
    runnerLoop [pendingOkCycle, quietOkCycle] false = some (2, RunEnd.completed) ∧
    2 ≤ 2 := by
  have h1 := C1_coalescing_amended.1 SyncTrigger.manual runningState rfl rfl rfl
  have h2 := C1_coalescing_amended.2 pendingOkCycle [quietOkCycle] 2
    RunEnd.completed rfl rfl rfl (by decide)
  exact ⟨h1.1, h1.2.1, h1.2.2.1, h1.2.2.2, by decide, h2⟩

/-! Runner-loop shape of a run whose k-th cycle throws. -/

lemma runnerLoop_pre_fail (pre : List CycleScript) (c : CycleScript)
    (rest : List CycleScript)
    (hpre : ∀ x ∈ pre, x.ok = true ∧ x.pendingSet = true ∧ x.shutdownSet = false)
    (hc : c.ok = false) :
    runnerLoop (pre ++ c :: rest) false = some (pre.length + 1, RunEnd.threw) := by
  induction pre with
  | nil => simp [runnerLoop, hc]
  | cons x xs ih =>
    obtain ⟨hok, hp, hsd⟩ := hpre x (List.mem_cons_self x xs)
    have hxs : ∀ y ∈ xs, y.ok = true ∧ y.pendingSet = true ∧ y.shutdownSet = false :=
      fun y hy => hpre y (List.mem_cons_of_mem x hy)
    have ihh := ih hxs
    simp only [List.cons_append, runnerLoop, hok, if_true, hsd, Bool.or_false,
      hp, Bool.not_false, Bool.and_self, Bool.and_true, reduceIte]
    simp only [List.append_eq] at *
    rw [ihh]
    simp [List.length_cons]

/-- C6: in every run, a cycle that throws is caught: the run promise
resolves normally (never rejects), the failure is logged with the run's
trigger context, and the retry loop stops at the failing cycle — no further
cycle executes in that run, regardless of the pending flag and of any cycles
the script would still allow. -/
theorem C6_cycle_failure_contained (t : SyncTrigger) (pre : List CycleScript)
    (c : CycleScript) (rest : List CycleScript)
    (hpre : ∀ x ∈ pre, x.ok = true ∧ x.pendingSet = true ∧ x.shutdownSet = false)
    (hc : c.ok = false) :
    runnerRun t (pre ++ c :: rest) =
      some { cyclesExecuted := pre.length + 1,
             errorLoggedWith := some t, promiseRejected := false } := by
  simp [runnerRun, runnerLoop_pre_fail pre c rest hpre hc]

/-- Witness for C6 at a concrete input: one resolving cycle with the pending
flag set, then a throwing cycle with the flag set again, then a cycle the
loop never reaches. -/
theorem C6_cycle_failure_contained_witness :
    (∀ x ∈ [pendingOkCycle], x.ok = true ∧ x.pendingSet = true ∧ x.shutdownSet = false) ∧
    failingCycle.ok = false ∧
    runnerRun SyncTrigger.websocket ([pendingOkCycle] ++ failingCycle :: [pendingOkCycle]) =
      some { cyclesExecuted := 2, errorLoggedWith := some SyncTrigger.websocket,
             promiseRejected := false } := by
  refine ⟨by decide, rfl, ?_⟩
  exact C6_cycle_failure_contained SyncTrigger.websocket [pendingOkCycle]
    failingCycle [pendingOkCycle] (by decide) rfl

/-- C9: a sync request made before `onReady` (ready flag still false) or
after shutdown has begun is a no-op: the plugin state is unchanged — so no
run starts, hence no fetch, no downstream calls and no watermark write — and
the call returns the ignored result instead of throwing. -/
theorem C9_pre_ready_post_shutdown_inert :
    (∀ (t : SyncTrigger) (s : PluginState),
      s.isReady = false ∨ s.isShuttingDown = true →
      requestSync t s = (s, SyncReturn.ignored)) ∧
    (∀ (t : SyncTrigger) (s : PluginState),
      requestSync t (shutdownBegin s) = (shutdownBegin s, SyncReturn.ignored)) := by
  constructor
  · intro t s h
    rcases h with h | h <;> simp [requestSync, h]
  · intro t s
    simp [requestSync, shutdownBegin]

/-- Witness for C9 at concrete inputs: a manual request against the
constructor state (before `onReady`) and an interval request after shutdown
began on a previously running state. -/
theorem C9_pre_ready_post_shutdown_inert_witness :
    requestSync SyncTrigger.manual (initialState none) =
      (initialState none, SyncReturn.ignored) ∧
    requestSync SyncTrigger.interval (shutdownBegin runningState) =
      (shutdownBegin runningState, SyncReturn.ignored) :=
  ⟨C9_pre_ready_post_shutdown_inert.1 SyncTrigger.manual (initialState none) (Or.inl rfl),
   C9_pre_ready_post_shutdown_inert.2 SyncTrigger.interval runningState⟩

/-- C8 amended: every scheduled reconnect delay equals
`min(initialDelay * multiplier ^ attempts, maxDelay)` and never exceeds the
configured maximum (60000 ms); the attempts counter increments each time a
reconnect is scheduled; scheduling is idempotent while a reconnect timer is
pending; and the attempts counter resets to zero when the first push message
arrives on the (re)connected socket.  (The original claim's "resets
immediately after a successful (re)connection" fails: a successful
`subscribe` call sets the connected flag but leaves the counter untouched
until a message arrives; see the counterexample.) -/
theorem C8_backoff_amended :
    (∀ s : WsState, s.isShuttingDown = false → s.reconnectTimer = none →
      (scheduleWebSocketReconnect s).reconnectTimer = some (wsDelay s.attempts) ∧
      (scheduleWebSocketReconnect s).attempts = s.attempts + 1) ∧
    (∀ a : Nat, wsDelay a ≤ MAX_DELAY_MS) ∧
    (∀ s : WsState, s.reconnectTimer.isSome = true →
      scheduleWebSocketReconnect s = s) ∧
    (∀ s : WsState, (onWsMessage s).attempts = 0) := by
  refine ⟨?_, ?_, ?_, ?_⟩
  · intro s h1 h2
    simp [scheduleWebSocketReconnect, h1, h2]
  · intro a
    exact min_le_right _ _
  · intro s h
    simp [scheduleWebSocketReconnect, h]
  · intro s
    rfl

/-- Counterexample to C8 as stated: after three reconnect attempts, a
successful `subscribe` call (re)connects the socket yet the attempts counter
still reads 3, not 0 — the reset only happens when a push message arrives. -/
theorem C8_counterexample :
    (connectWebSocket true wsThreeAttempts).connected = true ∧
    (connectWebSocket true wsThreeAttempts).subscribed = true ∧
    ¬ (connectWebSocket true wsThreeAttempts).attempts = 0 := by
  decide

/-- Witness for C8 amended at concrete states: scheduling from three prior
attempts arms the timer with the backoff delay and increments the counter;
the delay bound holds at attempt 5; scheduling is a no-op while a timer is
pending; and a push message resets the counter. -/
theorem C8_backoff_amended_witness :
    (scheduleWebSocketReconnect wsThreeAttempts).reconnectTimer = some (wsDelay 3) ∧
    (scheduleWebSocketReconnect wsThreeAttempts).attempts = 4 ∧
    wsDelay 5 ≤ MAX_DELAY_MS ∧
    scheduleWebSocketReconnect wsPendingTimer = wsPendingTimer ∧
    (onWsMessage wsThreeAttempts).attempts = 0 := by
  have h := C8_backoff_amended
  exact ⟨(h.1 wsThreeAttempts rfl rfl).1, (h.1 wsThreeAttempts rfl rfl).2,
    h.2.1 5, h.2.2.1 wsPendingTimer rfl, h.2.2.2 wsThreeAttempts⟩
